import Mathlib

/-!
# Verification of the JSON-RPC stdio/HTTP servers

Shallow embedding of `src/stdio/json-rpc_stdio-server.ts` and
`src/http/json-rpc_http-server.ts`.

JavaScript runtime values are modelled by `JSVal`: JSON-parsed data never
contains `undef`, but property reads of absent fields and handler results
may produce it.  Numbers are modelled as integers plus a `nan` marker; the
repository only ever manipulates integral numbers ("add" on two integers)
and the distinguished non-numeric outcomes of coercion.  A thrown JS
exception is modelled as `Except.error` carrying the message string;
exact exception texts of the V8 engine are reproduced up to punctuation.
-/

inductive JNum where
  | int (n : Int)
  | nan
deriving DecidableEq, Repr

inductive JSVal where
  | undef
  | null
  | bool (b : Bool)
  | num (v : JNum)
  | str (s : String)
  | arr (elems : List JSVal)
  | obj (fields : List (String × JSVal))

/-- Truthiness of a JS value (`!v` is `true` exactly on the falsy values:
`undefined`, `null`, `false`, `0`, `NaN` and the empty string). -/
def truthy : JSVal → Bool
  | .undef => false
  | .null => false
  | .bool b => b
  | .num (.int n) => n != 0
  | .num .nan => false
  | .str s => s ≠ ""
  | .arr _ => true
  | .obj _ => true

/-- Reads the first binding of key `k`.  JS objects produced by `JSON.parse`
have unique keys (a duplicated key in the source text keeps the last value),
so object field lists in this development are duplicate free and first-match
lookup coincides with JS property lookup. -/
def lookupField : List (String × JSVal) → String → JSVal
  | [], _ => .undef
  | (k2, v) :: rest, k => if k2 = k then v else lookupField rest k

/-- Value of a decimal digit string. -/
def digitsToNat (cs : List Char) : Nat :=
  cs.foldl (fun a c => a * 10 + (c.toNat - 48)) 0

/-- Canonical array-index reading of a property key, as used by JS indexed
access: a non-empty all-digit key without a leading zero (the key "0" is
index 0; "00" is an ordinary property name). -/
def parseIndex (k : String) : Option Nat :=
  match k.data with
  | [] => none
  | [c] => if c.isDigit then some (c.toNat - 48) else none
  | c :: cs =>
    if c.isDigit && c != '0' && cs.all Char.isDigit
    then some (digitsToNat (c :: cs)) else none

/-- Message of the TypeError V8 raises when reading a property of a nullish
value (the engine text carries the key in quotes; punctuation elided). -/
def readErr (base k : String) : String :=
  "TypeError: Cannot read properties of " ++ base ++ " (reading " ++ k ++ ")"

/-- Models the JS property read `v[k]` for the keys the two servers use
("jsonrpc", "id", "method", "params", "text", numeric indices): reading from
`undefined` or `null` throws a TypeError, objects yield the bound value or
`undefined`, arrays and strings support numeric indexing and "length", and
the remaining primitives have none of these keys. -/
def getProp : JSVal → String → Except String JSVal
  | .undef, k => .error (readErr "undefined" k)
  | .null, k => .error (readErr "null" k)
  | .obj fields, k => .ok (lookupField fields k)
  | .arr xs, k =>
    .ok (match parseIndex k with
      | some i => xs.getD i .undef
      | none => if k = "length" then .num (.int xs.length) else .undef)
  | .str s, k =>
    .ok (match parseIndex k with
      | some i =>
        match s.data.get? i with
        | some c => .str (String.mk [c])
        | none => .undef
      | none => if k = "length" then .num (.int s.data.length) else .undef)
  | .bool _, _ => .ok .undef
  | .num _, _ => .ok (.undef)

/-- Models the strict comparison `v === lit` of a value against a string
literal: it holds exactly for the equal primitive string (an object is never
strictly equal to a primitive). -/
def strictEqStr (v : JSVal) (lit : String) : Bool :=
  match v with
  | .str s => s = lit
  | _ => false

/-- Canonical text of a non-array value for the JS `ToString` coercion:
primitives print their standard rendering and a plain object prints as
"[object Object]".  The array row is unreachable: every caller routes
arrays through `joinComma` first. -/
def primToString : JSVal → String
  | .undef => "undefined"
  | .null => "null"
  | .bool b => if b then "true" else "false"
  | .num (.int n) => toString n
  | .num .nan => "NaN"
  | .str s => s
  | .arr _ => ""
  | .obj _ => "[object Object]"

mutual

/-- Comma join of array elements for `Array.prototype.join`, the rendering
an array receives under `ToString`. -/
def joinComma : List JSVal → String
  | [] => ""
  | [x] => elemString x
  | x :: xs => elemString x ++ "," ++ joinComma xs
termination_by xs => (sizeOf xs, 0)

/-- Rendering of one array element inside `join`: nullish elements render
as the empty string, nested arrays join recursively. -/
def elemString : JSVal → String
  | .undef => ""
  | .null => ""
  | .arr xs => joinComma xs
  | v => primToString v
termination_by v => (sizeOf v, 1)

end

/-- Models the JS `ToString` coercion (also used for computed property
keys): an array prints as its elements joined by commas, everything else
by its canonical text. -/
def toPropString : JSVal → String
  | .arr xs => joinComma xs
  | v => primToString v

/-- Models the JS `ToNumber` coercion on primitive values (the two sides of
`+` after `ToPrimitive`): nullish and boolean values map to fixed numbers,
and a string parses as a decimal integer, the empty string as `0`, anything
else as `NaN`.  Fractional and exotic numeric literals are outside the
integer fragment modelled here. -/
def toNumber : JSVal → JNum
  | .undef => .nan
  | .null => .int 0
  | .bool b => .int (if b then 1 else 0)
  | .num n => n
  | .str s =>
    if s.trim = "" then .int 0
    else
      match s.trim.toInt? with
      | some n => .int n
      | none => .nan
  | .arr _ => .nan
  | .obj _ => .nan

/-- Addition of modelled numbers; `NaN` is absorbing. -/
def jnumAdd : JNum → JNum → JNum
  | .int a, .int b => .int (a + b)
  | _, _ => .nan

/-- Holds exactly on string values. -/
def isStrVal : JSVal → Bool
  | .str _ => true
  | _ => false

/-- Models the JS `ToPrimitive` coercion with default hint as it applies to
the values of this development: primitives are unchanged, an array converts
to its joined string, and a plain object to "[object Object]". -/
def toPrimitive : JSVal → JSVal
  | .arr xs => .str (joinComma xs)
  | .obj _ => .str "[object Object]"
  | v => v

/-- Models the JS binary `+`: after `ToPrimitive`, if either side is a
string the result is the concatenation of both `ToString` images, otherwise
the numeric sum of both `ToNumber` images. -/
def jsAdd (a b : JSVal) : JSVal :=
  let pa := toPrimitive a
  let pb := toPrimitive b
  if isStrVal pa || isStrVal pb then .str (toPropString pa ++ toPropString pb)
  else .num (jnumAdd (toNumber pa) (toNumber pb))

/-- A registered method: a function from the params value to a result,
where `Except.error` models a thrown exception with its message. -/
def HandlerFn : Type := JSVal → Except String JSVal

/-- The echo handler `(params) => params.text`. -/
def echoHandler : HandlerFn := fun params => getProp params "text"

/-- The add handler `(params) => params[0] + params[1]`. -/
def addHandler : HandlerFn := fun params =>
  match getProp params "0" with
  | .error e => .error e
  | .ok a =>
    match getProp params "1" with
    | .error e => .error e
    | .ok b => .ok (jsAdd a b)

/-- `Object.prototype.toString` invoked with an `undefined` receiver (a bare
call `methodFunc(params)` in strict-mode module code) returns the string
"[object Undefined]" regardless of its arguments. -/
def protoToString : HandlerFn := fun _ => .ok (.str "[object Undefined]")

/-- `Object.prototype.constructor` is the `Object` function: called on a
nullish argument it returns a fresh empty object, and otherwise returns the
argument (a primitive wrapper serializes like the primitive itself, so the
wrapper step is elided). -/
def protoConstructor : HandlerFn := fun params =>
  .ok (match params with
    | .undef => .obj []
    | .null => .obj []
    | v => v)

/-- Message of the TypeError raised by `Object.prototype` methods that call
`ToObject` on their `undefined` receiver. -/
def toObjectErr : String := "TypeError: Cannot convert undefined or null to object"

/-- `Object.prototype.hasOwnProperty` with an `undefined` receiver throws
after coercing its argument to a property key. -/
def protoHasOwnProperty : HandlerFn := fun _ => .error toObjectErr

/-- `Object.prototype.isPrototypeOf` returns `false` outright when its
argument is not an object and only then coerces its `undefined` receiver,
which throws. -/
def protoIsPrototypeOf : HandlerFn := fun params =>
  match params with
  | .obj _ => .error toObjectErr
  | .arr _ => .error toObjectErr
  | _ => .ok (.bool false)

/-- `Object.prototype.propertyIsEnumerable` with an `undefined` receiver
throws on `ToObject`. -/
def protoPropertyIsEnumerable : HandlerFn := fun _ => .error toObjectErr

/-- `Object.prototype.valueOf` with an `undefined` receiver throws on
`ToObject`. -/
def protoValueOf : HandlerFn := fun _ => .error toObjectErr

/-- `Object.prototype.toLocaleString` with an `undefined` receiver throws
when it fetches `this.toString`. -/
def protoToLocaleString : HandlerFn :=
  fun _ => .error (readErr "undefined" "toString")

/-- The legacy accessor-definition functions of `Object.prototype` all
coerce their `undefined` receiver and throw. -/
def protoAccessorFn : HandlerFn := fun _ => .error toObjectErr

/-- Reading `__proto__` yields `Object.prototype` itself, a truthy
non-function value; invoking it as a handler throws a TypeError. -/
def protoProtoValue : HandlerFn :=
  fun _ => .error "TypeError: methodFunc is not a function"

/-- Models the JS property lookup `methods[name]` on the record literal of
both servers, whose own entries are exactly "echo" and "add".  A plain
object literal inherits from `Object.prototype`, so lookups of the names of
its properties also yield truthy values instead of `undefined`; the
standard function-valued and accessor properties are enumerated here, each
paired with the call behaviour of a bare `methodFunc(params)` invocation. -/
def methodsLookup (name : String) : Option HandlerFn :=
  if name = "echo" then some echoHandler
  else if name = "add" then some addHandler
  else if name = "toString" then some protoToString
  else if name = "constructor" then some protoConstructor
  else if name = "hasOwnProperty" then some protoHasOwnProperty
  else if name = "isPrototypeOf" then some protoIsPrototypeOf
  else if name = "propertyIsEnumerable" then some protoPropertyIsEnumerable
  else if name = "valueOf" then some protoValueOf
  else if name = "toLocaleString" then some protoToLocaleString
  else if name = "__defineGetter__" then some protoAccessorFn
  else if name = "__defineSetter__" then some protoAccessorFn
  else if name = "__lookupGetter__" then some protoAccessorFn
  else if name = "__lookupSetter__" then some protoAccessorFn
  else if name = "__proto__" then some protoProtoValue
  else none

/-- The error member of a response: the object literal with code and
message, in source order. -/
def errObj (code : Int) (message : String) : JSVal :=
  .obj [("code", .num (.int code)), ("message", .str message)]

/-- An error response object literal as both servers build it: jsonrpc,
id, error, in source order. -/
def errorResponse (idv : JSVal) (code : Int) (message : String) : JSVal :=
  .obj [("jsonrpc", .str "2.0"), ("id", idv), ("error", errObj code message)]

/-- A success response object literal: jsonrpc, id, result, in source
order.  The result field is present even when the handler returned
`undefined`. -/
def successResponse (idv result : JSVal) : JSVal :=
  .obj [("jsonrpc", .str "2.0"), ("id", idv), ("result", result)]

/-- The response built in the catch-all branch of both servers. -/
def parseErrorResponse : JSVal := errorResponse .null (-32700) "Parse error"

/-- The id normalization `request.id ?? null` applied by the stdio server
in every branch (and by the HTTP server outside its method-not-found
branch): nullish coalescing maps an absent (`undefined`) id to `null`. -/
def idCoalesce : JSVal → JSVal
  | .undef => .null
  | .null => .null
  | v => v

/-- The tail of the stdio `processMessage` try block after validation:
look up `methods[request.method]`; on a miss build the -32601 response
with `request.id ?? null`; otherwise read the params, invoke the handler
inside the inner try (a throw becomes the -32000 response carrying the
thrown message), and wrap a normal return as the result response. -/
def dispatchStep (request mv : JSVal) : Except String JSVal :=
  match methodsLookup (toPropString mv) with
  | none =>
    match getProp request "id" with
    | .error e => .error e
    | .ok idv => .ok (errorResponse (idCoalesce idv) (-32601) "Method not found")
  | some f =>
    match getProp request "params" with
    | .error e => .error e
    | .ok pv =>
      match getProp request "id" with
      | .error e => .error e
      | .ok idv =>
        match f pv with
        | .error msg => .ok (errorResponse (idCoalesce idv) (-32000) msg)
        | .ok result => .ok (successResponse (idCoalesce idv) result)

/-- The try block of the stdio `processMessage`: `none` stands for a line
`JSON.parse` rejects (its SyntaxError reaches the catch), and a parsed
value is validated with `request.jsonrpc !== "2.0" || !request.method`,
whose failure throws `Error("Invalid Request")` — also caught by the same
catch.  Property reads of a nullish parsed value throw likewise. -/
def processBody : Option JSVal → Except String JSVal
  | none => .error "SyntaxError: Unexpected token"
  | some request =>
    match getProp request "jsonrpc" with
    | .error e => .error e
    | .ok jv =>
      if strictEqStr jv "2.0" then
        match getProp request "method" with
        | .error e => .error e
        | .ok mv =>
          if truthy mv then dispatchStep request mv
          else .error "Invalid Request"
      else .error "Invalid Request"

/-- One stdio dispatch cycle (`processMessage`): any exception escaping the
try block is answered by the catch with the -32700 "Parse error" response,
id null.  The returned object stands for the serialized line the server
writes. -/
def processMessage (parsed : Option JSVal) : JSVal :=
  match processBody parsed with
  | .ok resp => resp
  | .error _ => parseErrorResponse

/-- An HTTP response body: plain text or a serialized JSON value. -/
inductive HttpBody where
  | text (s : String)
  | jsonBody (v : JSVal)

/-- The carrier-level request the HTTP handler receives: the verb and the
`JSON.parse` outcome of the body text (`none` when parsing throws). -/
structure HttpRequest where
  verb : String
  body : Option JSVal

/-- The carrier-level response: `Response` bodies built without an explicit
status carry the 200 default. -/
structure HttpResponse where
  status : Nat
  rbody : HttpBody

/-- The tail of the HTTP handler try block after validation.  It differs
from the stdio server in two ways: the method-not-found message carries the
method name interpolated from the template literal, and that branch writes
`id: rpcReq.id` without the `?? null` normalization. -/
def httpDispatch (rpcReq mv : JSVal) : Except String HttpResponse :=
  match methodsLookup (toPropString mv) with
  | none =>
    match getProp rpcReq "id" with
    | .error e => .error e
    | .ok idv =>
      .ok ⟨200, .jsonBody
        (errorResponse idv (-32601) ("Method not found: " ++ toPropString mv))⟩
  | some f =>
    match getProp rpcReq "params" with
    | .error e => .error e
    | .ok pv =>
      match getProp rpcReq "id" with
      | .error e => .error e
      | .ok idv =>
        match f pv with
        | .error msg =>
          .ok ⟨200, .jsonBody (errorResponse (idCoalesce idv) (-32000) msg)⟩
        | .ok result =>
          .ok ⟨200, .jsonBody (successResponse (idCoalesce idv) result)⟩

/-- The try block of the HTTP handler: parse, then the same
`rpcReq.jsonrpc !== "2.0" || !rpcReq.method` validation throwing
`Error("Invalid Request: missing jsonrpc or method")`. -/
def httpTry : Option JSVal → Except String HttpResponse
  | none => .error "SyntaxError: Unexpected token"
  | some rpcReq =>
    match getProp rpcReq "jsonrpc" with
    | .error e => .error e
    | .ok jv =>
      if strictEqStr jv "2.0" then
        match getProp rpcReq "method" with
        | .error e => .error e
        | .ok mv =>
          if truthy mv then httpDispatch rpcReq mv
          else .error "Invalid Request: missing jsonrpc or method"
      else .error "Invalid Request: missing jsonrpc or method"

/-- The HTTP `handler`: a non-POST verb is answered 405 before anything
else runs; otherwise the try block runs and any exception it leaks is
answered by the catch with status 400 and the -32700 "Parse error" body. -/
def handler (req : HttpRequest) : HttpResponse :=
  if req.verb = "POST" then
    match httpTry req.body with
    | .ok resp => resp
    | .error _ => ⟨400, .jsonBody parseErrorResponse⟩
  else ⟨405, .text "Method Not Allowed"⟩

/-- Holds exactly on `undefined`. -/
def isUndef : JSVal → Bool
  | .undef => true
  | _ => false

/-- The names of the top-level fields `JSON.stringify` writes for a
response object: exactly the fields whose value is not `undefined`
(stringify omits undefined-valued properties).  Wire-level claims about
field presence are stated through this observer. -/
def wireFields : JSVal → List String
  | .obj fields => (fields.filter (fun p => !isUndef p.2)).map (fun p => p.1)
  | _ => []

/-- Whether the serialized form of `v` carries a top-level field `k`. -/
def wireHasField (v : JSVal) (k : String) : Bool :=
  (wireFields v).contains k

/-- Value of field `k` of an object (the `undefined` of a JS read when the
field is absent or the value is no object). -/
def fieldOf (v : JSVal) (k : String) : JSVal :=
  match v with
  | .obj fields => lookupField fields k
  | _ => (.undef)

/-- Whether an object literally carries field `k`. -/
def hasField (v : JSVal) (k : String) : Bool :=
  match v with
  | .obj fields => fields.any (fun p => p.1 = k)
  | _ => false

/-- The integer code of a response's error member, when present. -/
def errorCodeOf (resp : JSVal) : Option Int :=
  match fieldOf resp "error" with
  | .obj efields =>
    match lookupField efields "code" with
    | .num (.int c) => some c
    | _ => none
  | _ => none

/-- The message of a response's error member, when present. -/
def errorMessageOf (resp : JSVal) : Option String :=
  match fieldOf resp "error" with
  | .obj efields =>
    match lookupField efields "message" with
    | .str m => some m
    | _ => none
  | _ => none

/-- The id field of a response object. -/
def idFieldOf (resp : JSVal) : JSVal := fieldOf resp "id"

/-- The JSON body of an HTTP response (`undefined` for a text body). -/
def httpBodyJson (r : HttpResponse) : JSVal :=
  match r.rbody with
  | .jsonBody v => v
  | .text _ => (.undef)

/-- The id value a request contributes: `none` when the line did not parse,
when reading `id` throws, or when the field is absent. -/
def requestIdOf : Option JSVal → Option JSVal
  | none => none
  | some v =>
    match getProp v "id" with
    | .error _ => none
    | .ok .undef => none
    | .ok w => some w

/-! ## Frame reader

The stdio server's `readLines` accumulates a text buffer across reads.
Payload text is modelled as `List Char`, and `buf.split("\x5cn")` as
`List.splitOn` on the newline character, which agrees with the JS `split`
for a one-character separator. -/

/-- The replacement character U+FFFD emitted by a lenient UTF-8 decoder. -/
def replChar : Char := '�'

/-- Lower bound of the second byte of a three-byte sequence. -/
def lower3 (b : Nat) : Nat := if b = 0xE0 then 0xA0 else 0x80

/-- Upper bound (exclusive) of the second byte of a three-byte sequence;
the `0xED` row excludes surrogates. -/
def upper3 (b : Nat) : Nat := if b = 0xED then 0xA0 else 0xC0

/-- Lower bound of the second byte of a four-byte sequence. -/
def lower4 (b : Nat) : Nat := if b = 0xF0 then 0x90 else 0x80

/-- Upper bound (exclusive) of the second byte of a four-byte sequence;
the `0xF4` row caps the code point at U+10FFFF. -/
def upper4 (b : Nat) : Nat := if b = 0xF4 then 0x90 else 0xC0

/-- Models one whole-chunk call of the runtime `TextDecoder` for UTF-8 in
its default lenient mode and without stream state (the server constructs
the decoder once but calls `decode` without carrying state between reads):
a well-formed sequence yields its code point, an ill-formed byte yields
U+FFFD and decoding restarts at the byte that failed, and a sequence
truncated by the end of the chunk yields a single U+FFFD. -/
def utf8Decode : List Nat → List Char
  | [] => []
  | b :: bs =>
    if b < 0x80 then Char.ofNat b :: utf8Decode bs
    else if b < 0xC2 then replChar :: utf8Decode bs
    else if b < 0xE0 then
      match bs with
      | [] => [replChar]
      | b2 :: rest =>
        if 0x80 ≤ b2 && b2 < 0xC0 then
          Char.ofNat ((b - 0xC0) * 0x40 + (b2 - 0x80)) :: utf8Decode rest
        else replChar :: utf8Decode (b2 :: rest)
    else if b < 0xF0 then
      match bs with
      | [] => [replChar]
      | b2 :: rest =>
        if lower3 b ≤ b2 && b2 < upper3 b then
          match rest with
          | [] => [replChar]
          | b3 :: rest2 =>
            if 0x80 ≤ b3 && b3 < 0xC0 then
              Char.ofNat ((b - 0xE0) * 0x1000 + (b2 - 0x80) * 0x40 + (b3 - 0x80))
                :: utf8Decode rest2
            else replChar :: utf8Decode (b3 :: rest2)
        else replChar :: utf8Decode (b2 :: rest)
    else if b < 0xF5 then
      match bs with
      | [] => [replChar]
      | b2 :: rest =>
        if lower4 b ≤ b2 && b2 < upper4 b then
          match rest with
          | [] => [replChar]
          | b3 :: rest2 =>
            if 0x80 ≤ b3 && b3 < 0xC0 then
              match rest2 with
              | [] => [replChar]
              | b4 :: rest3 =>
                if 0x80 ≤ b4 && b4 < 0xC0 then
                  Char.ofNat ((b - 0xF0) * 0x40000 + (b2 - 0x80) * 0x1000
                      + (b3 - 0x80) * 0x40 + (b4 - 0x80))
                    :: utf8Decode rest3
                else replChar :: utf8Decode (b4 :: rest3)
            else replChar :: utf8Decode (b3 :: rest2)
        else replChar :: utf8Decode (b2 :: rest)
    else replChar :: utf8Decode bs

/-- The loop of `readLines` over the remaining chunks: append the decoded
chunk to the buffer, split on the newline, keep the last piece
(`lines.pop() ?? ""`) as the new buffer and yield the complete lines; at
end of input yield the buffer once when it is non-empty (`if (buf)`). -/
def readLinesAux : List Char → List (List Char) → List (List Char)
  | buf, [] => if buf.isEmpty then [] else [buf]
  | buf, chunk :: rest =>
    ((buf ++ chunk).splitOn '\n').dropLast
      ++ readLinesAux (((buf ++ chunk).splitOn '\n').getLastD []) rest

/-- `readLines` on a stream of already-decoded text chunks, starting from
the empty buffer. -/
def readLines (chunks : List (List Char)) : List (List Char) :=
  readLinesAux [] chunks

/-- `readLines` on the byte chunks the reads deliver: the server decodes
each chunk independently (`decoder.decode(buffer.subarray(0, n))`) before
buffering. -/
def readLinesBytes (chunks : List (List Nat)) : List (List Char) :=
  readLines (chunks.map utf8Decode)

/-- Written from the claim for comparison with `readLines`: the payloads
obtained by splitting the whole input on the newline with the delimiter
stripped, followed by the trailing undelimited payload exactly once when it
is non-empty and by nothing when the input ends with a delimiter or is
empty. -/
def splitStripped (input : List Char) : List (List Char) :=
  (input.splitOn '\n').dropLast
    ++ (if (input.splitOn '\n').getLastD [] = [] then []
        else [(input.splitOn '\n').getLastD []])

/-! ## Frame reader lemmas -/

/-- The last element of a non-empty list under a default. -/
theorem getLastD_mem {α : Type} : ∀ (l : List α) (d : α), l ≠ [] → l.getLastD d ∈ l
  | [a], _, _ => by simp
  | a :: b :: l, d, _ => by
    rw [List.getLastD_cons]
    exact List.mem_cons_of_mem a (getLastD_mem (b :: l) a (by simp))

/-- No element of a piece produced by `splitOnP` satisfies the predicate. -/
theorem not_p_of_mem_splitOnP {α : Type} {p : α → Bool} :
    ∀ {l q : List α}, q ∈ l.splitOnP p → ∀ x ∈ q, ¬ p x = true := by
  intro l
  induction l with
  | nil =>
    intro q hq
    rw [List.splitOnP_nil] at hq
    rcases List.mem_singleton.mp hq with rfl
    intro x hx
    cases hx
  | cons a l ih =>
    intro q hq
    rw [List.splitOnP_cons] at hq
    by_cases hpa : p a = true
    · rw [if_pos hpa] at hq
      rcases List.mem_cons.mp hq with rfl | hq2
      · intro x hx; cases hx
      · exact ih hq2
    · rw [if_neg hpa] at hq
      obtain ⟨s, ss, hS⟩ := List.exists_cons_of_ne_nil (List.splitOnP_ne_nil p l)
      rw [hS, List.modifyHead_cons] at hq
      rcases List.mem_cons.mp hq with rfl | hq2
      · intro x hx
        rcases List.mem_cons.mp hx with rfl | hx2
        · exact hpa
        · exact ih (hS ▸ List.mem_cons_self s ss) x hx2
      · exact ih (hS ▸ List.mem_cons_of_mem s hq2)
  

/-- Splitting a concatenation: the pieces of `s` up to its last one,
followed by the pieces of `t` with the last piece of `s` glued onto the
first piece of `t`. -/
theorem splitOnP_append {α : Type} (p : α → Bool) (s t : List α) :
    (s ++ t).splitOnP p =
      (s.splitOnP p).dropLast
        ++ List.modifyHead (fun q => (s.splitOnP p).getLastD [] ++ q)
            (t.splitOnP p) := by
  induction s with
  | nil =>
    rw [List.nil_append, List.splitOnP_nil]
    cases h : t.splitOnP p with
    | nil => exact absurd h (List.splitOnP_ne_nil p t)
    | cons q qs => simp
  | cons a s ih =>
    rw [List.cons_append, List.splitOnP_cons, List.splitOnP_cons, ih]
    obtain ⟨q, qs, hS⟩ := List.exists_cons_of_ne_nil (List.splitOnP_ne_nil p s)
    rw [hS]
    by_cases hpa : p a = true
    · rw [if_pos hpa, if_pos hpa]
      cases qs with
      | nil => simp
      | cons r rs => simp [List.dropLast_cons₂, List.getLastD_cons]
    · rw [if_neg hpa, if_neg hpa]
      cases qs with
      | nil =>
        simp only [List.modifyHead_cons, List.dropLast_single, List.nil_append,
          List.dropLast_nil, List.getLastD_cons, List.getLastD_nil,
          List.modifyHead_modifyHead]
        cases h : t.splitOnP p with
        | nil => exact absurd h (List.splitOnP_ne_nil p t)
        | cons r rs => simp
      | cons r rs =>
        simp [List.dropLast_cons₂, List.getLastD_cons]

/-- Specialization of `splitOnP_append` to the character split used by the
frame reader. -/
theorem splitOn_append (s t : List Char) (c : Char) :
    (s ++ t).splitOn c =
      (s.splitOn c).dropLast
        ++ List.modifyHead (fun q => (s.splitOn c).getLastD [] ++ q)
            (t.splitOn c) :=
  splitOnP_append (· == c) s t

/-- The remainder the reader keeps in its buffer is separator free, so
splitting it alone returns it unchanged. -/
theorem splitOn_getLastD_single (l : List Char) :
    ((l.splitOn '\n').getLastD []).splitOn '\n'
      = [(l.splitOn '\n').getLastD []] := by
  apply List.splitOnP_eq_single
  intro x hx
  have hmem : (l.splitOn '\n').getLastD [] ∈ l.splitOnP (· == '\n') :=
    getLastD_mem _ _ (List.splitOnP_ne_nil _ l)
  exact not_p_of_mem_splitOnP hmem x hx

/-- The concatenation of the last piece onto an append. -/
theorem getLastD_append_cons {α : Type} (l : List α) (a : α) (l2 : List α)
    (d : α) : (l ++ a :: l2).getLastD d = (a :: l2).getLastD d := by
  rw [List.getLastD_eq_getLast?, List.getLastD_eq_getLast?,
    List.getLast?_append_cons]

/-- The reader loop started on a separator-free buffer yields exactly the
claim's split of the buffer followed by the remaining input. -/
theorem readLinesAux_splitStripped :
    ∀ (chunks : List (List Char)) (buf : List Char),
      buf.splitOn '\n' = [buf] →
      readLinesAux buf chunks = splitStripped (buf ++ chunks.flatten) := by
  intro chunks
  induction chunks with
  | nil =>
    intro buf hbuf
    simp only [readLinesAux, List.flatten_nil, List.append_nil, splitStripped]
    rw [hbuf]
    cases buf <;> simp
  | cons ch rest ih =>
    intro buf hbuf
    simp only [readLinesAux, List.flatten_cons]
    rw [ih _ (splitOn_getLastD_single (buf ++ ch)), ← List.append_assoc]
    rw [splitStripped, splitStripped]
    rw [splitOn_append (buf ++ ch) rest.flatten '\n',
      splitOn_append (((buf ++ ch).splitOn '\n').getLastD []) rest.flatten '\n',
      splitOn_getLastD_single (buf ++ ch)]
    simp only [List.dropLast_single, List.nil_append, List.getLastD_cons,
      List.getLastD_nil]
    cases h : rest.flatten.splitOn '\n' with
    | nil => exact absurd h (List.splitOnP_ne_nil _ _)
    | cons m ms =>
      simp only [List.modifyHead_cons]
      rw [List.dropLast_append_cons, getLastD_append_cons, List.append_assoc]

/-! ## Response invariants -/

/-- Holds when a response carries protocolVersion "2.0", at most one of
result and error survives serialization, and at least one of the two fields
is present on the response object itself. -/
def respInvariant (r : JSVal) : Bool :=
  strictEqStr (fieldOf r "jsonrpc") "2.0"
    && !(wireHasField r "result" && wireHasField r "error")
    && (hasField r "error" || hasField r "result")

/-- `respInvariant` for the JSON body of an HTTP response; text bodies are
not responses. -/
def bodyInvariant (resp : HttpResponse) : Bool :=
  match resp.rbody with
  | .text _ => true
  | .jsonBody v => respInvariant v

/-- Holds when a response is an object with protocolVersion "2.0", an id
field, and a result or error field. -/
def wellFormedResp (r : JSVal) : Bool :=
  strictEqStr (fieldOf r "jsonrpc") "2.0" && hasField r "id"
    && (hasField r "result" || hasField r "error")

/-- Written from the spec for comparison with `handler`: the payloads the
spec routes to the parse-failure report (no parse) together with those it
routes to the invalid-request report (nullish parse, wrong version, or
missing method). -/
def specParseOrInvalid : Option JSVal → Bool
  | none => true
  | some v =>
    match getProp v "jsonrpc" with
    | .error _ => true
    | .ok jv =>
      if strictEqStr jv "2.0" then
        match getProp v "method" with
        | .error _ => true
        | .ok mv => !truthy mv
      else true

/-! ## Helper lemmas about response shapes -/

theorem respInvariant_error (i : JSVal) (c : Int) (m : String) :
    respInvariant (errorResponse i c m) = true := by
  cases i <;> rfl

theorem respInvariant_success (i r : JSVal) :
    respInvariant (successResponse i r) = true := by
  cases i <;> cases r <;> rfl

theorem wellFormedResp_error (i : JSVal) (c : Int) (m : String) :
    wellFormedResp (errorResponse i c m) = true := rfl

theorem wellFormedResp_success (i r : JSVal) :
    wellFormedResp (successResponse i r) = true := rfl

theorem idFieldOf_error (i : JSVal) (c : Int) (m : String) :
    idFieldOf (errorResponse i c m) = i := rfl

theorem idFieldOf_success (i r : JSVal) :
    idFieldOf (successResponse i r) = i := rfl

theorem getProp_arr_jsonrpc (xs : List JSVal) :
    getProp (.arr xs) "jsonrpc" = .ok .undef := rfl

theorem getProp_str_jsonrpc (s : String) :
    getProp (.str s) "jsonrpc" = .ok .undef := rfl

/-- Only an object can satisfy the `jsonrpc === "2.0"` check: every other
value either throws on the read or reads `undefined`. -/
theorem jsonrpc_str_is_obj (v jv : JSVal) (h : getProp v "jsonrpc" = .ok jv)
    (hs : strictEqStr jv "2.0" = true) : ∃ fields, v = .obj fields := by
  cases v with
  | obj fields => exact ⟨fields, rfl⟩
  | undef => exact absurd h (by simp [getProp])
  | null => exact absurd h (by simp [getProp])
  | bool b =>
    simp only [getProp, Except.ok.injEq] at h
    rw [← h] at hs
    simp [strictEqStr] at hs
  | num n =>
    simp only [getProp, Except.ok.injEq] at h
    rw [← h] at hs
    simp [strictEqStr] at hs
  | arr xs =>
    rw [getProp_arr_jsonrpc] at h
    injection h with h2
    rw [← h2] at hs
    simp [strictEqStr] at hs
  | str s =>
    rw [getProp_str_jsonrpc] at h
    injection h with h2
    rw [← h2] at hs
    simp [strictEqStr] at hs

/-- Every outcome of `dispatchStep` is a thrown read error or a response
carrying the coalesced request id: an error response or a result
response. -/
theorem dispatchStep_shape (request mv : JSVal) :
    (∃ e, dispatchStep request mv = .error e)
    ∨ ∃ idv, getProp request "id" = .ok idv ∧
        ((∃ c m, dispatchStep request mv
            = .ok (errorResponse (idCoalesce idv) c m))
          ∨ (∃ r, dispatchStep request mv
            = .ok (successResponse (idCoalesce idv) r))) := by
  unfold dispatchStep
  split
  · split
    · rename_i e heq
      exact .inl ⟨e, rfl⟩
    · rename_i idv heq
      exact .inr ⟨idv, heq, .inl ⟨-32601, "Method not found", rfl⟩⟩
  · split
    · rename_i e heq
      exact .inl ⟨e, rfl⟩
    · split
      · rename_i e heq
        exact .inl ⟨e, rfl⟩
      · rename_i idv heqid
        split
        · rename_i msg heqf
          exact .inr ⟨idv, heqid, .inl ⟨-32000, msg, rfl⟩⟩
        · rename_i r heqf
          exact .inr ⟨idv, heqid, .inr ⟨r, rfl⟩⟩

/-- A value the stdio try block returns normally is an error or success
response carrying the coalesced request id. -/
theorem processBody_ok_shape (v resp : JSVal)
    (h : processBody (some v) = .ok resp) :
    ∃ idv, getProp v "id" = .ok idv ∧
      ((∃ c m, resp = errorResponse (idCoalesce idv) c m)
        ∨ (∃ r, resp = successResponse (idCoalesce idv) r)) := by
  simp only [processBody] at h
  split at h
  · exact absurd h (by simp)
  · rename_i jv heqj
    split at h
    · split at h
      · exact absurd h (by simp)
      · rename_i mv heqm
        split at h
        · rcases dispatchStep_shape v mv with ⟨e, he⟩ | ⟨idv, hid, hsh⟩
          · rw [he] at h
            exact absurd h (by simp)
          · refine ⟨idv, hid, ?_⟩
            rcases hsh with ⟨c, m, hcm⟩ | ⟨r, hr⟩
            · rw [hcm] at h
              exact .inl ⟨c, m, (Except.ok.inj h).symm⟩
            · rw [hr] at h
              exact .inr ⟨r, (Except.ok.inj h).symm⟩
        · exact absurd h (by simp)
    · exact absurd h (by simp)

/-- Every stdio cycle answers with the parse-error response or with an
error or success response carrying the coalesced request id. -/
theorem processMessage_shape (parsed : Option JSVal) :
    processMessage parsed = parseErrorResponse
    ∨ ∃ v idv, parsed = some v ∧ getProp v "id" = .ok idv ∧
        ((∃ c m, processMessage parsed = errorResponse (idCoalesce idv) c m)
          ∨ (∃ r, processMessage parsed
              = successResponse (idCoalesce idv) r)) := by
  unfold processMessage
  cases hb : processBody parsed with
  | error e => exact .inl rfl
  | ok resp =>
    cases parsed with
    | none => exact absurd hb (by simp [processBody])
    | some v =>
      obtain ⟨idv, hid, hsh⟩ := processBody_ok_shape v resp hb
      refine .inr ⟨v, idv, rfl, hid, ?_⟩
      rcases hsh with ⟨c, m, hcm⟩ | ⟨r, hr⟩
      · exact .inl ⟨c, m, hcm⟩
      · exact .inr ⟨r, hr⟩

/-- On an object request the HTTP dispatch tail never throws: every
property read succeeds and handler failures are caught. -/
theorem httpDispatch_obj_ok (fields : List (String × JSVal)) (mv : JSVal) :
    ∃ r, httpDispatch (.obj fields) mv = .ok r := by
  unfold httpDispatch
  split
  · split
    · rename_i e heq
      exact absurd heq (by simp [getProp])
    · exact ⟨_, rfl⟩
  · split
    · rename_i e heq
      exact absurd heq (by simp [getProp])
    · split
      · rename_i e heq
        exact absurd heq (by simp [getProp])
      · split
        · exact ⟨_, rfl⟩
        · exact ⟨_, rfl⟩

/-- Every response the HTTP try block returns normally has status 200 and
an error or success body. -/
theorem httpTry_ok_shape (parsed : Option JSVal) (resp : HttpResponse)
    (h : httpTry parsed = .ok resp) :
    (∃ i c m, resp = ⟨200, .jsonBody (errorResponse i c m)⟩)
    ∨ (∃ i r, resp = ⟨200, .jsonBody (successResponse i r)⟩) := by
  cases parsed with
  | none => exact absurd h (by simp [httpTry])
  | some v =>
    simp only [httpTry] at h
    split at h
    · exact absurd h (by simp)
    · split at h
      · split at h
        · exact absurd h (by simp)
        · rename_i mv heqm
          split at h
          · unfold httpDispatch at h
            split at h
            · split at h
              · exact absurd h (by simp)
              · rename_i idv heqid
                exact .inl ⟨idv, -32601, _, (Except.ok.inj h).symm⟩
            · split at h
              · exact absurd h (by simp)
              · split at h
                · exact absurd h (by simp)
                · rename_i idv heqid
                  split at h
                  · rename_i msg heqf
                    exact .inl ⟨idCoalesce idv, -32000, msg,
                      (Except.ok.inj h).symm⟩
                  · rename_i r heqf
                    exact .inr ⟨idCoalesce idv, r, (Except.ok.inj h).symm⟩
          · exact absurd h (by simp)
      · exact absurd h (by simp)

/-- The HTTP try block throws exactly on the payloads of
`specParseOrInvalid`: parse failures and requests failing the
version/method validation. -/
theorem httpTry_error_iff (parsed : Option JSVal) :
    (∃ e, httpTry parsed = .error e) ↔ specParseOrInvalid parsed = true := by
  cases parsed with
  | none => simp [httpTry, specParseOrInvalid]
  | some v =>
    simp only [httpTry, specParseOrInvalid]
    split
    · simp
    · rename_i jv heqj
      split
      · rename_i hs
        split
        · simp
        · rename_i mv heqm
          split
          · rename_i ht
            obtain ⟨fields, rfl⟩ := jsonrpc_str_is_obj v jv heqj hs
            obtain ⟨r, hr⟩ := httpDispatch_obj_ok fields mv
            rw [hr, ht]
            simp
          · rename_i ht
            rw [Bool.not_eq_true] at ht
            rw [ht]
            simp
      · simp

/-- On a POST the handler is the try block with the 400 catch. -/
theorem handler_post_eq (b : Option JSVal) :
    handler ⟨"POST", b⟩
      = (match httpTry b with
          | .ok r => r
          | .error _ => ⟨400, .jsonBody parseErrorResponse⟩) := rfl

/-- Every HTTP answer is the 405 text, the 400 parse-error body, or a 200
response with an error or success body. -/
theorem handler_shape (req : HttpRequest) :
    handler req = ⟨405, .text "Method Not Allowed"⟩
    ∨ handler req = ⟨400, .jsonBody parseErrorResponse⟩
    ∨ (∃ i c m, handler req = ⟨200, .jsonBody (errorResponse i c m)⟩)
    ∨ (∃ i r, handler req = ⟨200, .jsonBody (successResponse i r)⟩) := by
  unfold handler
  split
  · cases hb : httpTry req.body with
    | error e => exact .inr (.inl rfl)
    | ok resp =>
      rcases httpTry_ok_shape req.body resp hb with ⟨i, c, m, hr⟩ | ⟨i, r, hr⟩
      · exact .inr (.inr (.inl ⟨i, c, m, hr⟩))
      · exact .inr (.inr (.inr ⟨i, r, hr⟩))
  · exact .inl rfl

/-! ## Concrete requests used by the claims -/

/-- A structurally valid payload with wrong protocolVersion. -/
def invalidVersionReq : JSVal :=
  .obj [("jsonrpc", .str "1.0"), ("id", .num (.int 7)), ("method", .str "echo")]

/-- A structurally valid payload without a method field. -/
def missingMethodReq : JSVal :=
  .obj [("jsonrpc", .str "2.0"), ("id", .num (.int 8))]

/-- A valid request naming an unregistered method. -/
def unknownMethodReq : JSVal :=
  .obj [("jsonrpc", .str "2.0"), ("id", .num (.int 3)), ("method", .str "nope")]

/-- A valid echo request whose params object lacks the text field. -/
def echoEmptyParamsReq : JSVal :=
  .obj [("jsonrpc", .str "2.0"), ("id", .num (.int 1)),
    ("method", .str "echo"), ("params", .obj [])]

/-- A valid add request whose params are two strings. -/
def addStringParamsReq : JSVal :=
  .obj [("jsonrpc", .str "2.0"), ("id", .num (.int 9)),
    ("method", .str "add"), ("params", .arr [.str "a", .str "b"])]

/-- A valid add request without params. -/
def addMissingParamsReq : JSVal :=
  .obj [("jsonrpc", .str "2.0"), ("id", .num (.int 5)), ("method", .str "add")]

/-- A valid request naming an `Object.prototype` member as method. -/
def protoReq (name : String) : JSVal :=
  .obj [("jsonrpc", .str "2.0"), ("id", .num (.int 4)), ("method", .str name)]

/-- A valid request naming an unregistered method, with no id. -/
def notifUnknownReq : JSVal :=
  .obj [("jsonrpc", .str "2.0"), ("method", .str "nope")]

/-! ## Claims -/

/-- C1: the claim says a structurally valid payload with wrong
protocolVersion or missing method is answered -32600 with id null.  The
code throws `Error("Invalid Request")` inside the same try whose catch
unconditionally builds the -32700 "Parse error" response, so both servers
answer such payloads with -32700 (the HTTP server with status 400): only
the id = null part of the claim holds. -/
theorem c1_invalid_request_reported_as_parse_error :
    processMessage (some invalidVersionReq) = parseErrorResponse
    ∧ processMessage (some missingMethodReq) = parseErrorResponse
    ∧ errorCodeOf parseErrorResponse = some (-32700)
    ∧ idFieldOf parseErrorResponse = JSVal.null
    ∧ handler ⟨"POST", some invalidVersionReq⟩
        = ⟨400, .jsonBody parseErrorResponse⟩
    ∧ handler ⟨"POST", some missingMethodReq⟩
        = ⟨400, .jsonBody parseErrorResponse⟩ :=
  ⟨rfl, rfl, rfl, rfl, rfl, rfl⟩

/-- C6: a payload rejected by the parser is answered in both servers with
code -32700, message "Parse error", and id null. -/
theorem c6_parse_failure_minus_32700 :
    processMessage none = parseErrorResponse
    ∧ errorCodeOf (processMessage none) = some (-32700)
    ∧ errorMessageOf (processMessage none) = some "Parse error"
    ∧ idFieldOf (processMessage none) = JSVal.null
    ∧ handler ⟨"POST", none⟩ = ⟨400, .jsonBody parseErrorResponse⟩
    ∧ errorCodeOf (httpBodyJson (handler ⟨"POST", none⟩)) = some (-32700)
    ∧ errorMessageOf (httpBodyJson (handler ⟨"POST", none⟩))
        = some "Parse error"
    ∧ idFieldOf (httpBodyJson (handler ⟨"POST", none⟩)) = JSVal.null :=
  ⟨rfl, rfl, rfl, rfl, rfl, rfl, rfl, rfl⟩

/-- C9: method lookup is plain property access, so names inherited from
`Object.prototype` such as "toString", "constructor" and "hasOwnProperty"
resolve to callable values; both servers invoke them as handlers instead of
answering -32601. -/
theorem c9_prototype_names_dispatch :
    (methodsLookup "toString").isSome = true
    ∧ (methodsLookup "constructor").isSome = true
    ∧ (methodsLookup "hasOwnProperty").isSome = true
    ∧ fieldOf (processMessage (some (protoReq "toString"))) "result"
        = JSVal.str "[object Undefined]"
    ∧ errorCodeOf (processMessage (some (protoReq "toString")))
        ≠ some (-32601)
    ∧ errorCodeOf (processMessage (some (protoReq "hasOwnProperty")))
        = some (-32000)
    ∧ errorCodeOf (processMessage (some (protoReq "constructor"))) = none
    ∧ errorCodeOf (httpBodyJson (handler ⟨"POST", some (protoReq "toString")⟩))
        ≠ some (-32601)
    ∧ (handler ⟨"POST", some (protoReq "toString")⟩).status = 200 :=
  ⟨rfl, rfl, rfl, rfl, by decide, rfl, rfl, by decide, rfl⟩

/-- C2 (counterexample): the two-byte character U+00E9 delivered one byte
per read chunk decodes to two replacement characters, so the reader's
output differs from the split of the decoded whole input; the same bytes in
one chunk agree with it.  The claim fails for byte partitions that split a
character. -/
theorem c2_byte_chunking_counterexample :
    readLinesBytes [[195], [169]] ≠ splitStripped (utf8Decode [195, 169])
    ∧ readLinesBytes [[195, 169]] = splitStripped (utf8Decode [195, 169]) :=
  ⟨by decide, by decide⟩

/-- C2 (amended): over chunks of whole characters — any partition whose
chunk boundaries do not split a character's encoding — the reader yields
exactly the split of the whole input with delimiters stripped, the trailing
undelimited payload once when non-empty, and nothing further when the
input ends with a delimiter or is empty. -/
theorem c2_reader_yields_split_of_character_chunks
    (chunks : List (List Char)) :
    readLines chunks = splitStripped chunks.flatten := by
  have h := readLinesAux_splitStripped chunks [] (by rfl)
  simpa [readLines] using h

/-- C3 (counterexample): echo invoked with a params object lacking text
returns undefined; the response carries a result field at the object level
but the serialized response carries neither result nor error, contradicting
the claim for the wire. -/
theorem c3_undefined_result_neither_on_wire :
    processMessage (some echoEmptyParamsReq)
      = successResponse (.num (.int 1)) .undef
    ∧ wireHasField (processMessage (some echoEmptyParamsReq)) "result" = false
    ∧ wireHasField (processMessage (some echoEmptyParamsReq)) "error" = false :=
  ⟨rfl, rfl, rfl⟩

/-- C3 (amended): every response of both servers carries protocolVersion
"2.0" and at most one of result and error on the wire, and at least one of
the two fields on the response object itself; the serialized response
carries neither exactly when the invoked handler returned undefined. -/
theorem c3_at_most_one_of_result_error :
    (∀ parsed : Option JSVal, respInvariant (processMessage parsed) = true)
    ∧ (∀ req : HttpRequest, bodyInvariant (handler req) = true) := by
  constructor
  · intro parsed
    rcases processMessage_shape parsed with
      h | ⟨v, idv, _, _, ⟨c, m, h⟩ | ⟨r, h⟩⟩
    · rw [h]
      exact respInvariant_error _ _ _
    · rw [h]
      exact respInvariant_error _ _ _
    · rw [h]
      exact respInvariant_success _ _
  · intro req
    rcases handler_shape req with h | h | ⟨i, c, m, h⟩ | ⟨i, r, h⟩ <;> rw [h]
    · rfl
    · exact respInvariant_error _ _ _
    · exact respInvariant_error _ _ _
    · exact respInvariant_success _ _

/-- C4 (counterexample): a POST carrying syntactically valid JSON with
wrong protocolVersion — a protocol-level invalid request — is answered with
transport status 400, not with a 200-equivalent status as claimed. -/
theorem c4_invalid_request_gets_status_400 :
    (handler ⟨"POST", some invalidVersionReq⟩).status = 400 := rfl

/-- C7 (counterexample): add invoked with a two-element string array does
not fail; dispatch answers a success response built from the malformed
params, the JS `+` having coerced the strings to their concatenation. -/
theorem c7_add_coerces_malformed_params :
    processMessage (some addStringParamsReq)
      = successResponse (.num (.int 9)) (.str "ab")
    ∧ hasField (processMessage (some addStringParamsReq)) "error" = false
    ∧ errorCodeOf (processMessage (some addStringParamsReq)) = none :=
  ⟨rfl, rfl, rfl⟩

/-- C8: every stdio cycle returns exactly one well-formed response — the
catch converts every failure, so no exception escapes — and a request
without an id field (a notification) is still answered, with id null. -/
theorem c8_always_one_response_notification_id_null :
    ∀ parsed : Option JSVal,
      wellFormedResp (processMessage parsed) = true
      ∧ (requestIdOf parsed = none →
          idFieldOf (processMessage parsed) = JSVal.null) := by
  intro parsed
  constructor
  · rcases processMessage_shape parsed with
      h | ⟨v, idv, _, _, ⟨c, m, h⟩ | ⟨r, h⟩⟩ <;> rw [h]
    · exact wellFormedResp_error _ _ _
    · exact wellFormedResp_error _ _ _
    · exact wellFormedResp_success _ _
  · intro hreq
    rcases processMessage_shape parsed with h | ⟨v, idv, hp, hid, hsh⟩
    · rw [h]
      rfl
    · subst hp
      simp only [requestIdOf] at hreq
      rw [hid] at hreq
      cases idv with
      | undef =>
        rcases hsh with ⟨c, m, h⟩ | ⟨r, h⟩ <;> rw [h]
        · exact idFieldOf_error _ _ _
        · exact idFieldOf_success _ _
      | null => simp at hreq
      | bool b => simp at hreq
      | num n => simp at hreq
      | str s => simp at hreq
      | arr xs => simp at hreq
      | obj fs => simp at hreq

/-- C8 (witness): a valid echo notification is answered with a well-formed
response whose id is null. -/
theorem c8_witness :
    wellFormedResp (processMessage (some notifUnknownReq)) = true
    ∧ idFieldOf (processMessage (some notifUnknownReq)) = JSVal.null :=
  ⟨(c8_always_one_response_notification_id_null (some notifUnknownReq)).1,
   (c8_always_one_response_notification_id_null (some notifUnknownReq)).2
     rfl⟩

/-- C4 (amended): non-POST verbs are answered 405 with no dispatch (the
answer is independent of the body); a POST is answered 400 with the
parse-error body exactly when the payload fails to parse or fails the
version/method validation — the invalid-request case is folded into the
parse path — and with status 200 for every other outcome, including
method-not-found and handler failure. -/
theorem c4_http_status_partition :
    ∀ (verb : String) (b : Option JSVal),
      (verb ≠ "POST" → handler ⟨verb, b⟩ = ⟨405, .text "Method Not Allowed"⟩)
      ∧ ((handler ⟨"POST", b⟩).status
          = if specParseOrInvalid b then 400 else 200)
      ∧ (specParseOrInvalid b = true →
          handler ⟨"POST", b⟩ = ⟨400, .jsonBody parseErrorResponse⟩) := by
  intro verb b
  refine ⟨?_, ?_, ?_⟩
  · intro hv
    unfold handler
    rw [if_neg hv]
  · by_cases hs : specParseOrInvalid b = true
    · rw [if_pos hs]
      obtain ⟨e, he⟩ := (httpTry_error_iff b).mpr hs
      rw [handler_post_eq, he]
    · rw [if_neg hs]
      rw [Bool.not_eq_true] at hs
      cases hb : httpTry b with
      | error e =>
        have h2 := (httpTry_error_iff b).mp ⟨e, hb⟩
        rw [hs] at h2
        cases h2
      | ok r =>
        rw [handler_post_eq, hb]
        rcases httpTry_ok_shape b r hb with ⟨i, c, m, hr⟩ | ⟨i, r2, hr⟩ <;>
          rw [hr]
  · intro hs
    obtain ⟨e, he⟩ := (httpTry_error_iff b).mpr hs
    rw [handler_post_eq, he]

/-- C4 (witness): a GET is answered 405, and an unparseable POST body is
answered 400 with the parse-error body. -/
theorem c4_witness :
    handler ⟨"GET", some invalidVersionReq⟩
      = ⟨405, .text "Method Not Allowed"⟩
    ∧ handler ⟨"POST", none⟩ = ⟨400, .jsonBody parseErrorResponse⟩ :=
  ⟨(c4_http_status_partition "GET" (some invalidVersionReq)).1 (by decide),
   (c4_http_status_partition "POST" none).2.2 (by decide)⟩

/-- The version check accepts the literal "2.0". -/
theorem strictEqStr_twozero : strictEqStr (.str "2.0") "2.0" = true := rfl

/-- C5 (counterexample): the HTTP server's method-not-found message
interpolates the method name; it is not the exact string "Method not
found" the claim requires of both servers. -/
theorem c5_http_message_not_exact :
    handler ⟨"POST", some unknownMethodReq⟩
      = ⟨200, .jsonBody (errorResponse (.num (.int 3)) (-32601)
          "Method not found: nope")⟩
    ∧ errorMessageOf (httpBodyJson (handler ⟨"POST", some unknownMethodReq⟩))
        ≠ some "Method not found" :=
  ⟨rfl, by decide⟩

/-- C5 (amended): a valid request naming a method that resolves to no own
or inherited entry is answered -32601 with the request id in both servers;
the message is exactly "Method not found" in the stdio server, while the
HTTP server appends the method name (and does not normalize an absent id,
see C10). -/
theorem c5_method_not_found :
    ∀ (v mv idv : JSVal),
      getProp v "jsonrpc" = .ok (.str "2.0") →
      getProp v "method" = .ok mv →
      truthy mv = true →
      methodsLookup (toPropString mv) = none →
      getProp v "id" = .ok idv →
      processMessage (some v)
        = errorResponse (idCoalesce idv) (-32601) "Method not found"
      ∧ handler ⟨"POST", some v⟩
        = ⟨200, .jsonBody (errorResponse idv (-32601)
            ("Method not found: " ++ toPropString mv))⟩ := by
  intro v mv idv hj hm ht hlk hid
  constructor
  · unfold processMessage
    simp [processBody, hj, hm, ht, dispatchStep, hlk, hid, strictEqStr]
  · rw [handler_post_eq]
    simp [httpTry, hj, hm, ht, httpDispatch, hlk, hid, strictEqStr]

/-- C5 (witness): the stdio and HTTP answers for a request naming the
unregistered method "nope". -/
theorem c5_witness :
    processMessage (some unknownMethodReq)
      = errorResponse (.num (.int 3)) (-32601) "Method not found"
    ∧ handler ⟨"POST", some unknownMethodReq⟩
      = ⟨200, .jsonBody (errorResponse (.num (.int 3)) (-32601)
          "Method not found: nope")⟩ :=
  c5_method_not_found unknownMethodReq (.str "nope") (.num (.int 3))
    rfl rfl rfl rfl rfl

/-- C7 (amended): whenever the invoked handler throws, both servers answer
-32000 carrying the thrown message and the coalesced request id; handlers
do not validate parameter shapes, however, so malformed params that fail to
make the handler throw yield a success response (see the counterexample). -/
theorem c7_handler_throw_minus_32000 :
    ∀ (v mv pv idv : JSVal) (f : HandlerFn) (msg : String),
      getProp v "jsonrpc" = .ok (.str "2.0") →
      getProp v "method" = .ok mv →
      truthy mv = true →
      methodsLookup (toPropString mv) = some f →
      getProp v "params" = .ok pv →
      getProp v "id" = .ok idv →
      f pv = .error msg →
      processMessage (some v) = errorResponse (idCoalesce idv) (-32000) msg
      ∧ handler ⟨"POST", some v⟩
        = ⟨200, .jsonBody (errorResponse (idCoalesce idv) (-32000) msg)⟩ := by
  intro v mv pv idv f msg hj hm ht hlk hp hid hf
  constructor
  · unfold processMessage
    simp [processBody, hj, hm, ht, dispatchStep, hlk, hp, hid, hf,
      strictEqStr]
  · rw [handler_post_eq]
    simp [httpTry, hj, hm, ht, httpDispatch, hlk, hp, hid, hf, strictEqStr]

/-- C7 (witness): add invoked without params throws on reading the first
element of undefined and is answered -32000 with that message. -/
theorem c7_witness :
    processMessage (some addMissingParamsReq)
      = errorResponse (.num (.int 5)) (-32000) (readErr "undefined" "0")
    ∧ handler ⟨"POST", some addMissingParamsReq⟩
      = ⟨200, .jsonBody (errorResponse (.num (.int 5)) (-32000)
          (readErr "undefined" "0"))⟩ :=
  c7_handler_throw_minus_32000 addMissingParamsReq (.str "add") .undef
    (.num (.int 5)) addHandler (readErr "undefined" "0")
    rfl rfl rfl rfl rfl rfl rfl

/-- C10: the HTTP method-not-found branch writes `id: rpcReq.id` without
the `?? null` normalization, so for a valid request with no id naming a
method that resolves to nothing the serialized -32601 response omits the id
field entirely; in every other branch of both servers — including every
stdio branch — an absent request id is answered as id null. -/
theorem c10_http_not_found_id_not_normalized :
    ∀ (v mv : JSVal),
      getProp v "jsonrpc" = .ok (.str "2.0") →
      getProp v "method" = .ok mv →
      truthy mv = true →
      getProp v "id" = .ok .undef →
      (methodsLookup (toPropString mv) = none →
        wireHasField (httpBodyJson (handler ⟨"POST", some v⟩)) "id" = false
        ∧ idFieldOf (processMessage (some v)) = JSVal.null)
      ∧ (∀ f : HandlerFn, methodsLookup (toPropString mv) = some f →
          idFieldOf (httpBodyJson (handler ⟨"POST", some v⟩)) = JSVal.null
          ∧ idFieldOf (processMessage (some v)) = JSVal.null) := by
  intro v mv hj hm ht hid
  have hstdio : idFieldOf (processMessage (some v)) = JSVal.null := by
    rcases processMessage_shape (some v) with h | ⟨v2, idv, hp, hid2, hsh⟩
    · rw [h]
      rfl
    · injection hp with hpv
      subst hpv
      rw [hid] at hid2
      injection hid2 with hidv
      subst hidv
      rcases hsh with ⟨c, m, h⟩ | ⟨r, h⟩ <;> rw [h]
      · exact idFieldOf_error _ _ _
      · exact idFieldOf_success _ _
  constructor
  · intro hlk
    refine ⟨?_, hstdio⟩
    rw [handler_post_eq]
    simp [httpTry, hj, hm, ht, httpDispatch, hlk, hid, strictEqStr,
      httpBodyJson, wireHasField, wireFields, errorResponse, errObj, isUndef]
  · intro f hlk
    refine ⟨?_, hstdio⟩
    rw [handler_post_eq]
    cases hp : getProp v "params" with
    | error e =>
      simp [httpTry, hj, hm, ht, httpDispatch, hlk, hp, hid, strictEqStr,
        httpBodyJson, parseErrorResponse, errorResponse, errObj, idFieldOf,
        fieldOf, lookupField]
    | ok pv =>
      cases hf : f pv with
      | error msg =>
        simp [httpTry, hj, hm, ht, httpDispatch, hlk, hp, hid, hf,
          strictEqStr, httpBodyJson, errorResponse, errObj, idFieldOf,
          fieldOf, lookupField, idCoalesce]
      | ok r =>
        simp [httpTry, hj, hm, ht, httpDispatch, hlk, hp, hid, hf,
          strictEqStr, httpBodyJson, successResponse, idFieldOf, fieldOf,
          lookupField, idCoalesce]

/-- C10 (witness): the HTTP -32601 answer to an id-less request naming
"nope" omits the id field on the wire, while the stdio answer carries id
null. -/
theorem c10_witness :
    wireHasField (httpBodyJson (handler ⟨"POST", some notifUnknownReq⟩))
      "id" = false
    ∧ idFieldOf (processMessage (some notifUnknownReq)) = JSVal.null :=
  (c10_http_not_found_id_not_normalized notifUnknownReq (.str "nope")
    rfl rfl rfl rfl).1 rfl
